import Mathlib

/-!
Verification of the PanGEA panoramic-graph navigation engine.

The development shallowly embeds the core of the repository:
`src/utils.js` (argmin / keymin), `src/environment.js` (the `Environment`
graph operations and the `Navigator` target selection and transition),
`src/drawing.js` (the `LineDrawing` overlay), and the record/replay loop
of `examples/environment_demo.html`.

Modelling conventions:
* JavaScript numbers are embedded as rationals (`ℚ`).  Euclidean and
  ray-to-point distances are represented by their squares (squaring is
  strictly monotone on nonnegative reals, so every comparison, argmin
  selection and tie pattern of the source is preserved verbatim).
* `Infinity` (used by `Navigator.update` to mark neighbors behind the
  viewing plane) is embedded as `⊤` in `WithTop ℚ`.
* Fallible code (thrown JS errors / rejected promises) returns `Except`.
  Where the source mutates state before throwing, the embedding returns
  the mutated state together with the error.
* A `THREE.Matrix4` is a list of 16 rationals in THREE's column-major
  element order; `setFromMatrixPosition` reads elements 12, 13, 14.
-/

namespace Pangea

/-- A 3D point/vector with rational coordinates. -/
structure Vec3 where
  x : ℚ
  y : ℚ
  z : ℚ
deriving DecidableEq, Repr

namespace Vec3

/-- Componentwise subtraction (`THREE.Vector3.sub`). -/
def sub (a b : Vec3) : Vec3 := ⟨a.x - b.x, a.y - b.y, a.z - b.z⟩

/-- Componentwise addition (`THREE.Vector3.add`). -/
def add (a b : Vec3) : Vec3 := ⟨a.x + b.x, a.y + b.y, a.z + b.z⟩

/-- Scalar multiplication (`THREE.Vector3.multiplyScalar`). -/
def smul (t : ℚ) (a : Vec3) : Vec3 := ⟨t * a.x, t * a.y, t * a.z⟩

/-- Dot product (`THREE.Vector3.dot`). -/
def dot (a b : Vec3) : ℚ := a.x * b.x + a.y * b.y + a.z * b.z

/-- Squared Euclidean distance (`THREE.Vector3.distanceToSquared`);
the source compares `distanceTo` values, whose order agrees. -/
def distSq (a b : Vec3) : ℚ :=
  (a.x - b.x) ^ 2 + (a.y - b.y) ^ 2 + (a.z - b.z) ^ 2

end Vec3

/-- A 4x4 matrix as its 16 elements in THREE's column-major storage order. -/
abbrev Mat4 := List ℚ

/-- Translation part of a matrix (`THREE.Vector3.setFromMatrixPosition`
reads elements 12, 13 and 14). -/
def matPosition (m : Mat4) : Vec3 :=
  ⟨m.getD 12 0, m.getD 13 0, m.getD 14 0⟩

/-!
`src/utils.js`:

```js
export function argmin(array) {
  return array.map((x, i) => [x, i]).reduce((x, y) => x[0] < y[0] ? x : y)[1];
}
export function keymin(array, fn) {
  return array[argmin(array.map(fn))];
}
```

`reduce` keeps the accumulator only when it is strictly smaller, so a tie
moves the running minimum to the later element: `argmin` returns the index
of the LAST occurrence of the minimum.  `reduce` on an empty array throws
a `TypeError`; the embedding returns `none` in that case.
-/

/-- The fold inside `argmin`: `i` is the index of the next element,
`(bi, bv)` the running best index/value pair. -/
def argminAux {α : Type} [LinearOrder α] : List α → Nat → Nat → α → Nat × α
  | [], _, bi, bv => (bi, bv)
  | a :: as, i, bi, bv =>
    if bv < a then argminAux as (i + 1) bi bv else argminAux as (i + 1) i a

/-- The `argmin` of `src/utils.js`; `none` on the empty list (JS throws). -/
def argmin {α : Type} [LinearOrder α] : List α → Option Nat
  | [] => none
  | a :: as => some (argminAux as 1 0 a).1

/-- The `keymin` of `src/utils.js`; `none` on the empty list (JS throws). -/
def keymin {β α : Type} [LinearOrder α] (l : List β) (f : β → α) : Option β :=
  (argmin (l.map f)).bind fun i => l.get? i

/-- The value held by the `argmin` fold never exceeds the accumulator
nor any remaining element. -/
theorem argminAux_le {α : Type} [LinearOrder α] (as : List α) :
    ∀ i bi bv, (argminAux as i bi bv).2 ≤ bv ∧
      ∀ a ∈ as, (argminAux as i bi bv).2 ≤ a := by
  induction as with
  | nil => intro i bi bv; simp [argminAux]
  | cons a as ih =>
    intro i bi bv
    simp only [argminAux]
    by_cases h : bv < a
    · simp only [if_pos h]
      obtain ⟨h1, h2⟩ := ih (i + 1) bi bv
      refine ⟨h1, ?_⟩
      intro x hx
      rcases List.mem_cons.mp hx with rfl | hx
      · exact h1.trans h.le
      · exact h2 x hx
    · simp only [if_neg h]
      obtain ⟨h1, h2⟩ := ih (i + 1) i a
      refine ⟨h1.trans (not_lt.mp h), ?_⟩
      intro x hx
      rcases List.mem_cons.mp hx with rfl | hx
      · exact h1
      · exact h2 x hx

/-- The `argmin` fold returns either the accumulator pair or an indexed
element of the remaining list. -/
theorem argminAux_get {α : Type} [LinearOrder α] (as : List α) :
    ∀ i bi bv, argminAux as i bi bv = (bi, bv) ∨
      ∃ k, ∃ hk : k < as.length,
        argminAux as i bi bv = (i + k, as.get ⟨k, hk⟩) := by
  induction as with
  | nil => intro i bi bv; left; rfl
  | cons a as ih =>
    intro i bi bv
    simp only [argminAux]
    by_cases h : bv < a
    · simp only [if_pos h]
      rcases ih (i + 1) bi bv with h1 | ⟨k, hk, h2⟩
      · left; exact h1
      · right
        refine ⟨k + 1, by simpa using Nat.succ_lt_succ hk, ?_⟩
        rw [h2]
        have : i + 1 + k = i + (k + 1) := by omega
        simp [this]
    · simp only [if_neg h]
      rcases ih (i + 1) i a with h1 | ⟨k, hk, h2⟩
      · right
        exact ⟨0, by simp, by simpa using h1⟩
      · right
        refine ⟨k + 1, by simpa using Nat.succ_lt_succ hk, ?_⟩
        rw [h2]
        have : i + 1 + k = i + (k + 1) := by omega
        simp [this]

/-- Elements placed strictly after the position chosen by the `argmin`
fold are strictly larger: ties move the minimum to the later element. -/
theorem argminAux_after {α : Type} [LinearOrder α] (as : List α) :
    ∀ i bi bv, bi < i →
      ∀ k, ∀ hk : k < as.length, (argminAux as i bi bv).1 < i + k →
        (argminAux as i bi bv).2 < as.get ⟨k, hk⟩ := by
  induction as with
  | nil => intro i bi bv _ k hk; simp at hk
  | cons a as ih =>
    intro i bi bv hbi k hk hlt
    simp only [argminAux] at *
    by_cases h : bv < a
    · simp only [if_pos h] at hlt ⊢
      match k with
      | 0 =>
        rcases argminAux_get as (i + 1) bi bv with h1 | ⟨k', hk', h2⟩
        · rw [h1] at hlt ⊢
          simpa using lt_of_le_of_lt (le_refl bv) h
        · rw [h2] at hlt
          simp at hlt
          omega
      | k' + 1 =>
        have := ih (i + 1) bi bv (by omega) k' (by simpa using Nat.lt_of_succ_lt_succ hk)
          (by omega)
        simpa using this
    · simp only [if_neg h] at hlt ⊢
      match k with
      | 0 =>
        rcases argminAux_get as (i + 1) i a with h1 | ⟨k', hk', h2⟩
        · rw [h1] at hlt; simp at hlt
        · rw [h2] at hlt
          simp at hlt
          omega
      | k' + 1 =>
        have := ih (i + 1) i a (by omega) k' (by simpa using Nat.lt_of_succ_lt_succ hk)
          (by omega)
        simpa using this

/-- Specification of `argmin` on a nonempty list: it returns a valid
index holding a minimum of the list, and every element strictly after
that index is strictly larger (last-occurrence tie-breaking). -/
theorem argmin_spec {α : Type} [LinearOrder α] (l : List α) (h : l ≠ []) :
    ∃ i, ∃ hi : i < l.length, argmin l = some i ∧
      (∀ j, ∀ hj : j < l.length, l.get ⟨i, hi⟩ ≤ l.get ⟨j, hj⟩) ∧
      (∀ j, ∀ hj : j < l.length, i < j → l.get ⟨i, hi⟩ < l.get ⟨j, hj⟩) := by
  match l, h with
  | a :: as, _ =>
    have hle := argminAux_le as 1 0 a
    have hafter := argminAux_after as 1 0 a (by omega)
    have hget := argminAux_get as 1 0 a
    rcases hp : argminAux as 1 0 a with ⟨pi, pv⟩
    rw [hp] at hle hafter hget
    simp only at hle hafter hget
    -- the chosen index is valid and the list holds the fold's value there
    have hkey : ∃ hi : pi < (a :: as).length, (a :: as).get ⟨pi, hi⟩ = pv := by
      rcases hget with h1 | ⟨k, hk, h2⟩
      · obtain ⟨hpi, hpv⟩ := Prod.mk.injEq .. ▸ h1
        subst hpi; subst hpv
        exact ⟨by simp, rfl⟩
      · obtain ⟨hpi, hpv⟩ := Prod.mk.injEq .. ▸ h2
        subst hpi; subst hpv
        refine ⟨by simp; omega, ?_⟩
        have h1k : 1 + k = k + 1 := by omega
        simp only [List.get_eq_getElem, h1k, List.getElem_cons_succ]
    obtain ⟨hi, hval⟩ := hkey
    refine ⟨pi, hi, by simp [argmin, hp], ?_, ?_⟩
    · intro j hj
      rw [hval]
      match j with
      | 0 => simpa using hle.1
      | j' + 1 =>
        have hj' : j' < as.length := by simpa using Nat.lt_of_succ_lt_succ hj
        have := hle.2 (as.get ⟨j', hj'⟩) (as.get_mem _ _)
        simpa using this
    · intro j hj hij
      rw [hval]
      match j with
      | 0 => omega
      | j' + 1 =>
        have hj' : j' < as.length := by simpa using Nat.lt_of_succ_lt_succ hj
        have := hafter j' hj' (by omega)
        simpa using this

/-- Specification of `keymin` on a nonempty list: it returns an element
at a valid index minimizing `f`, with every later element strictly
larger under `f` (last-occurrence tie-breaking). -/
theorem keymin_spec {β α : Type} [LinearOrder α] (l : List β) (f : β → α)
    (h : l ≠ []) :
    ∃ i, ∃ hi : i < l.length, keymin l f = some (l.get ⟨i, hi⟩) ∧
      (∀ j, ∀ hj : j < l.length, f (l.get ⟨i, hi⟩) ≤ f (l.get ⟨j, hj⟩)) ∧
      (∀ j, ∀ hj : j < l.length, i < j →
        f (l.get ⟨i, hi⟩) < f (l.get ⟨j, hj⟩)) := by
  have hne : l.map f ≠ [] := by
    intro hc
    exact h (List.map_eq_nil_iff.mp hc)
  obtain ⟨i, hi, heq, hmin, hafter⟩ := argmin_spec (l.map f) hne
  have hil : i < l.length := by simpa using hi
  refine ⟨i, hil, ?_, ?_, ?_⟩
  · simp only [keymin, heq, Option.bind_some]
    simp [List.get?_eq_get hil]
  · intro j hj
    have := hmin j (by simpa using hj)
    simpa using this
  · intro j hj hij
    have := hafter j (by simpa using hj) hij
    simpa using this

/-!
`src/environment.js`: the `Environment` class.  Rendering-only state
(the THREE scene, the `bubble` mesh, texture materials) is external to
the claims; the embedding keeps the graph, the current-node pointer and
the camera pose (position, field of view, matrices).
-/

/-- Errors thrown by the JavaScript source. -/
inductive JsError where
  /-- The `Panorama not found` throw of `Environment.getPanorama`. -/
  | notFound (id : String)
  /-- The `Cannot prune the current pano` throw of `Environment.prunePanoramas`. -/
  | cannotPruneCurrent
  /-- The `Panorama not set` throw of `Navigator.update`. -/
  | panoramaNotSet
  /-- A JS `TypeError` from reading a property of `undefined`. -/
  | undefinedProperty
deriving DecidableEq, Repr

/-- A panoramic viewpoint record (the `Panorama` typedef).  `urls` and
the `materials` cache are resolved by the external renderer and carry no
information the claims inspect, so they are not modelled. -/
structure Panorama where
  id : String
  exmat : Mat4
  /-- Optional cursor position (`curpos`); `null`/`undefined` is `none`. -/
  curpos : Option Vec3
  navigable : List String
  /-- Optional visible neighbors; `null`/`undefined` is `none`. -/
  visible : Option (List String)
deriving DecidableEq, Repr

/-- The mutable state of an `Environment`: its panorama list, the
current-node pointer `sourceId` (`undefined` before the first
`setPanorama`), and the camera pose. -/
structure Env where
  panos : List Panorama
  sourceId : Option String
  cameraPos : Vec3
  cameraFov : ℚ
  /-- The camera matrix (`camera.matrix`), as restored by `setSnapshot`. -/
  cameraExmat : Mat4
  /-- The projection matrix (`camera.projectionMatrix`). -/
  cameraInmat : Mat4
deriving DecidableEq, Repr

/-- The ids of the nodes present in the graph, in storage order. -/
def nodeIds (env : Env) : List String := env.panos.map (fun p => p.id)

/-- The lookup `Environment.getPanorama`: first pano whose id matches, else throw. -/
def getPanorama (env : Env) (id : String) : Except JsError Panorama :=
  match env.panos.find? (fun p => p.id == id) with
  | some p => .ok p
  | none => .error (.notFound id)

/-- The accessor `Environment.getExmat` (the clone is identity in a pure embedding). -/
def getExmat (env : Env) (id : String) : Except JsError Mat4 :=
  (getPanorama env id).map (fun p => p.exmat)

/-- The accessor `Environment.getPosition`: translation part of the extrinsic. -/
def getPosition (env : Env) (id : String) : Except JsError Vec3 :=
  (getExmat env id).map matPosition

/-- Total version of `getPosition` used inside `getClosest`, where the
looked-up id always comes from `panos` itself and the `not found` throw
is unreachable (the junk value is never produced on those calls). -/
def getPositionD (env : Env) (id : String) : Vec3 :=
  match env.panos.find? (fun p => p.id == id) with
  | some p => matPosition p.exmat
  | none => ⟨0, 0, 0⟩

/-- The scan `Environment.getClosest`: `keymin` over all panos by distance from
`pos` (squared distance in the embedding; same order).  `none` iff the
graph is empty (where the JS `reduce` throws). -/
def getClosest (env : Env) (pos : Vec3) : Option String :=
  (keymin env.panos (fun p => Vec3.distSq (getPositionD env p.id) pos)).map
    (fun p => p.id)

/-- The accessor `Environment.getNavigable` (the defensive copy is identity). -/
def getNavigable (env : Env) (id : String) : Except JsError (List String) :=
  (getPanorama env id).map (fun p => p.navigable)

/-- The accessor `Environment.getVisible`: the `visible` list when present (a JS
array is truthy even when empty), else the navigable neighbors. -/
def getVisible (env : Env) (id : String) : Except JsError (List String) :=
  match getPanorama env id with
  | .error e => .error e
  | .ok p =>
    match p.visible with
    | some v => .ok v
    | none => getNavigable env id

/-- The accessor `Navigator.getCurpos`: the pano's `curpos` when present (a
`THREE.Vector3` is always truthy), else the pano position. -/
def getCurpos (env : Env) (id : String) : Except JsError Vec3 :=
  match getPanorama env id with
  | .error e => .error e
  | .ok p =>
    match p.curpos with
    | some c => .ok c
    | none => getPosition env id

/-- The graph invariant of the data model: every id in a `navigable` or
`visible` list refers to a node currently present in the graph. -/
def adjClosed (env : Env) : Prop :=
  ∀ p ∈ env.panos,
    (∀ x ∈ p.navigable, x ∈ nodeIds env) ∧
    (∀ x ∈ p.visible.getD [], x ∈ nodeIds env)

instance (env : Env) : Decidable (adjClosed env) := by
  unfold adjClosed
  infer_instance

/-- The body of the `flatMap` over `this.panos` in
`Environment.prunePanoramas`: drop a named pano, and strip the named
ids from the adjacency lists of a kept one (a missing `visible` stays
missing). -/
def pruneNode (ids : List String) (p : Panorama) : Option Panorama :=
  if ids.contains p.id then none
  else some { p with
    navigable := p.navigable.filter (fun x => !ids.contains x),
    visible := p.visible.map (List.filter (fun x => !ids.contains x)) }

/-- The mutation `Environment.prunePanoramas`: throws if the current pano is named
(`ids.includes(this.sourceId)` — an unset `sourceId` is `undefined` and
never a member of a string list); otherwise removes the named panos and
filters the named ids out of every remaining `navigable`/`visible`
list. -/
def prunePanoramas (env : Env) (ids : List String) : Except JsError Env :=
  if (match env.sourceId with
      | some s => ids.contains s
      | none => false) then
    .error .cannotPruneCurrent
  else
    .ok { env with panos := env.panos.filterMap (pruneNode ids) }

/-- The mutation `Environment.keepPanoramas`: prune the complement of `ids` within
the current pano list. -/
def keepPanoramas (env : Env) (ids : List String) : Except JsError Env :=
  prunePanoramas env (env.panos.filterMap (fun p =>
    if ids.contains p.id then none else some p.id))

/-- The mutation `Environment.setPanorama`: a strict no-op when `id` is already
current; otherwise it sets `sourceId` FIRST, then looks the pano up
(so an unknown id throws only after the pointer was overwritten), moves
the camera to the pano position and prefetches the navigable neighbors'
materials.  The returned list holds the ids whose materials are
requested from the external texture loader (the prefetch hint). -/
def setPanorama (env : Env) (id : String) : Env × Except JsError (List String) :=
  if env.sourceId = some id then (env, .ok [])
  else
    let env1 := { env with sourceId := some id }
    match getPanorama env id with
    | .error e => (env1, .error e)
    | .ok p =>
      ({ env1 with cameraPos := matPosition p.exmat }, .ok p.navigable)

/-- A pose-trace snapshot: `Environment.getSnapshot` output plus the
`time` field attached by the recording loop of the demo. -/
structure Snapshot where
  id : String
  exmat : Mat4
  inmat : Mat4
  time : ℚ
deriving DecidableEq, Repr

/-- The mutation `Environment.setSnapshot`: restore the node via `setPanorama`, then
overwrite the camera matrices from the snapshot (the `decompose` call
sets the camera position to the matrix translation), bypassing any
field-of-view/aspect recomputation. -/
def setSnapshot (env : Env) (s : Snapshot) : Env × Except JsError (List String) :=
  match setPanorama env s.id with
  | (env1, .error e) => (env1, .error e)
  | (env1, .ok pf) =>
    ({ env1 with
        cameraPos := matPosition s.exmat,
        cameraExmat := s.exmat,
        cameraInmat := s.inmat }, .ok pf)

/-!
`src/environment.js`: the `Navigator` class.  The WebGL renderer, orbit
controls and the cursor mesh live outside the claims; the embedding
keeps the enabled flag of the controls, the target pointer and the
cursor's visibility flag.  `update`'s mouse ray (the output of
`raycaster.setFromCamera`) enters as the parameters `o` (ray origin)
and `d` (ray direction).
-/

/-- A JS `array.map(f)` where `f` may throw: the first throw aborts
the whole map. -/
def mapExcept {α β : Type} (f : α → Except JsError β) :
    List α → Except JsError (List β)
  | [] => .ok []
  | a :: as =>
    match f a, mapExcept f as with
    | .error e, _ => .error e
    | .ok _, .error e => .error e
    | .ok b, .ok bs => .ok (b :: bs)

/-- A JS `array.map(f)` where `f` may throw, for `Option`-valued
failure. -/
def mapOption {α β : Type} (f : α → Option β) :
    List α → Option (List β)
  | [] => some []
  | a :: as =>
    match f a, mapOption f as with
    | none, _ => none
    | some _, none => none
    | some b, some bs => some (b :: bs)

/-- The state of a `Navigator` beyond its environment. -/
structure Nav where
  env : Env
  /-- Field `targetId`: the currently selected navigation target, if any. -/
  targetId : Option String
  /-- Field `cursor.visible`: whether the on-screen target cursor is shown. -/
  cursorVisible : Bool
  /-- Field `controls.enabled`: navigation input enabled. -/
  controlsEnabled : Bool
deriving DecidableEq, Repr

/-- The distance `THREE.Ray.distanceSqToPoint` for the ray with origin `o` and
direction `d`: distance from the projection of `p` onto the ray
(clamped to the origin when the point projects behind it). -/
def distSqToRay (o d p : Vec3) : ℚ :=
  let t := Vec3.dot (p.sub o) d
  if t < 0 then Vec3.distSq p o else Vec3.distSq p (o.add (d.smul t))

/-- The `distances` array of `Navigator.update`: `Infinity` (here `⊤`)
for cursor positions whose direction from the ray origin has a strictly
negative dot product with the ray direction ("behind the viewing
plane"), else the ray-to-point distance (squared here; same order). -/
def navDists (o d : Vec3) (ps : List Vec3) : List (WithTop ℚ) :=
  ps.map (fun p =>
    if Vec3.dot (p.sub o) d < 0 then (⊤ : WithTop ℚ)
    else ((distSqToRay o d p : ℚ) : WithTop ℚ))

/-- The index selection of `Navigator.update`: `i = argmin(distances)`,
discarded when `distances[i] === Infinity`. -/
def selectIndex (o d : Vec3) (ps : List Vec3) : Option Nat :=
  match argmin (navDists o d ps) with
  | none => none
  | some i => if (navDists o d ps).getD i ⊤ = ⊤ then none else some i

/-- The target-selection portion of `Navigator.update`.  Rendering
side effects (`renderer.render`, `TWEEN.update`, the orbital-target
adjustment and the frustum clamping of the cursor position, which only
relocate the drawn cursor) are not modelled.  Throws when no pano is
set (`!this.sourceId`; the empty string is falsy in JS).  When the
current node has no navigable neighbors the whole block is skipped and
the previous `targetId`/cursor visibility persist. -/
def navUpdate (nav : Nav) (o d : Vec3) : Except JsError Nav :=
  match nav.env.sourceId with
  | none => .error .panoramaNotSet
  | some sid =>
    if sid = "" then .error .panoramaNotSet
    else
      match getNavigable nav.env sid with
      | .error e => .error e
      | .ok ns =>
        if ns = [] then .ok nav
        else
          match mapExcept (getCurpos nav.env) ns with
          | .error e => .error e
          | .ok ps =>
            match selectIndex o d ps with
            | none => .ok { nav with cursorVisible := false, targetId := none }
            | some i => .ok { nav with cursorVisible := true, targetId := ns.get? i }

/-- The field of view applied by the transition tween's `onUpdate` at
eased progress `time ∈ [0,1]`: `(1 - time) * fov0 + time * fov1` with
`fov1 = fov0 * min(distance, 1 / distance)`.  `d` is the Euclidean
distance between the start and target pano positions, kept as a
parameter (it is the square root of a rational).  In ℚ, `0⁻¹ = 0`,
matching `Math.min(0, Infinity) = 0` for coincident positions. -/
def transitionFov (fov0 d time : ℚ) : ℚ :=
  (1 - time) * fov0 + time * (fov0 * min d d⁻¹)

/-- The fov assignment of the `onComplete` handler:
`this.camera.fov = fov0`. -/
def resetFov (e : Env) (fov0 : ℚ) : Env :=
  { e with cameraFov := fov0 }

/-- The tween's `onComplete` handler: reset the field of view to the
captured `fov0`, then set the target pano as current and re-enable the
controls.  It runs on whatever state the animation updates left. -/
def transitionComplete (nav : Nav) (fov0 : ℚ) (tid : String) :
    Nav × Except JsError Unit :=
  match setPanorama (resetFov nav.env fov0) tid with
  | (env1, .error e) => ({ nav with env := env1 }, .error e)
  | (env1, .ok _) =>
    ({ nav with env := env1, controlsEnabled := true }, .ok ())

/-- The handler `Navigator.ondblclick`: a no-op unless the controls are enabled and
a pano is targeted (`this.targetId` truthy — the empty string is
falsy).  Otherwise it disables the controls, captures the target and
`fov0`, looks up the start and end positions (an unknown id throws with
the controls left disabled), runs the tween (whose per-tick field of
view is `transitionFov fov0 d time`, with `d` the Euclidean distance
between the two positions, passed here as a parameter) and finishes
with `transitionComplete`. -/
def ondblclick (nav : Nav) (d : ℚ) : Nav × Except JsError Unit :=
  match nav.targetId with
  | none => (nav, .ok ())
  | some tid =>
    if nav.controlsEnabled ∧ tid ≠ "" then
      let nav1 := { nav with controlsEnabled := false }
      match nav.env.sourceId with
      | none => (nav1, .error (.notFound ("undefined")))
      | some sid =>
        match getPosition nav1.env sid with
        | .error e => (nav1, .error e)
        | .ok _p0 =>
          match getPosition nav1.env tid with
          | .error e => (nav1, .error e)
          | .ok _p1 =>
            let fov0 := nav1.env.cameraFov
            -- the animation leaves the camera at the last onUpdate value
            let navAnim := { nav1 with
              env := { nav1.env with cameraFov := transitionFov fov0 d 1 } }
            transitionComplete navAnim fov0 tid
    else (nav, .ok ())

/-!
`src/drawing.js`: the `LineDrawing` overlay.  The subpoint positions
are produced by `getIntermediatePoints` (a Euclidean-distance
subdivision whose output the claims treat as given) and enter the
constructor as a list; the claims concern the anchors bound there and
the per-tick visibility update.  Colors and THREE mesh children are
rendering payloads and are not modelled.
-/

/-- A line drawing: its subpoints and the anchor bound to each at
construction.  The record is never mutated afterwards. -/
structure LineDrawing where
  subpoints : List Vec3
  anchors : List String
deriving DecidableEq, Repr

/-- The anchor binding of the `LineDrawing` constructor: each subpoint
is anchored to `env.getClosest(point)` once, at construction.  `none`
iff the graph is empty (where the JS `reduce` inside `keymin` throws
during construction). -/
def mkLineDrawing (env : Env) (pts : List Vec3) : Option LineDrawing :=
  (mapOption (getClosest env) pts).map (fun as => ⟨pts, as⟩)

/-- The per-child visibility of `LineDrawing.update`:
`anchor === env.sourceId || env.getVisible(env.sourceId).includes(anchor)`.
When no pano is set the right disjunct calls `getVisible(undefined)`,
which throws `Panorama undefined not found`. -/
def childVisible (env : Env) (anchor : String) : Except JsError Bool :=
  if env.sourceId = some anchor then .ok true
  else
    match env.sourceId with
    | none => .error (.notFound ("undefined"))
    | some sid =>
      match getVisible env sid with
      | .error e => .error e
      | .ok vis => .ok (vis.contains anchor)

/-- The per-tick `LineDrawing.update`: recompute every subpoint's visibility flag
from the current node (the anchors themselves are left untouched). -/
def lineUpdate (env : Env) (ld : LineDrawing) : Except JsError (List Bool) :=
  mapExcept (childVisible env) ld.anchors

/-!
`examples/environment_demo.html`: the record/replay loop.  Recording
appends `{...env.getSnapshot(), time: record.elapsedTime}` each tick;
the stop handler computes `totalTime = snapshots[snapshots.length - 1]
.time` (a `TypeError` on an empty buffer) and then replays: each replay
tick stops once the elapsed time exceeds `totalTime`, and otherwise —
when the buffer is nonempty — applies the `keymin` snapshot by
`|snapshot.time - elapsedTime|` via `env.setSnapshot` (no pose
interpolation: a recorded snapshot is applied verbatim).
-/

/-- What one replay tick does. -/
inductive ReplayAction where
  /-- Case for `replay.stop(); resolve()` — the replay session terminates. -/
  | stopped
  /-- Case for `env.setSnapshot(s); env.update()` on the selected snapshot. -/
  | applied (s : Snapshot)
  /-- Empty buffer: no visual update this tick. -/
  | idle
deriving DecidableEq, Repr

/-- The nearest-timestamp sampling rule: `keymin` of the buffer by
`|snapshot.time - t|`. -/
def replaySelect (snapshots : List Snapshot) (t : ℚ) : Option Snapshot :=
  keymin snapshots (fun s => |s.time - t|)

/-- One tick of the replay animation callback at elapsed time `t`,
with `totalTime` as captured by the stop handler. -/
def replayTick (snapshots : List Snapshot) (totalTime t : ℚ) : ReplayAction :=
  if totalTime < t then .stopped
  else
    match replaySelect snapshots t with
    | some s => .applied s
    | none => .idle

/-- The start of the replay session in the stop handler: computing
`snapshots[snapshots.length - 1].time` reads the `time` property of
`undefined` when the buffer is empty and throws a `TypeError`. -/
def startReplay (snapshots : List Snapshot) : Except JsError ℚ :=
  match snapshots.getLast? with
  | none => .error .undefinedProperty
  | some s => .ok s.time

/-!
Concrete fixtures used by witnesses and counterexamples.
-/

/-- The identity `THREE.Matrix4` (translation `(0,0,0)`). -/
def idMat4 : Mat4 := [1, 0, 0, 0, 0, 1, 0, 0, 0, 0, 1, 0, 0, 0, 0, 1]

/-- A matrix placing a viewpoint at `(tx, ty, tz)`. -/
def trMat4 (tx ty tz : ℚ) : Mat4 :=
  [1, 0, 0, 0, 0, 1, 0, 0, 0, 0, 1, 0, tx, ty, tz, 1]

/-- A one-node environment whose current node is `"A"`. -/
def envSingleA : Env :=
  { panos := [⟨"A", idMat4, none, [], none⟩],
    sourceId := some ("A"), cameraPos := ⟨0, 0, 0⟩, cameraFov := 45,
    cameraExmat := idMat4, cameraInmat := idMat4 }

/-- A two-node environment: `"A"` at the origin (current) and `"B"` at
`(5,0,0)`, mutually navigable. -/
def envTwoAB : Env :=
  { panos := [⟨"A", idMat4, none, ["B"], none⟩,
      ⟨"B", trMat4 5 0 0, none, ["A"], none⟩],
    sourceId := some ("A"), cameraPos := ⟨0, 0, 0⟩, cameraFov := 45,
    cameraExmat := idMat4, cameraInmat := idMat4 }

/-- A three-node environment with full adjacency, current node `"A"`;
node `"C"` omits its `visible` list (defaulting to `navigable`). -/
def envThreeABC : Env :=
  { panos := [⟨"A", idMat4, none, ["B", "C"], some ["B", "C"]⟩,
      ⟨"B", trMat4 5 0 0, none, ["A", "C"], some ["A", "C"]⟩,
      ⟨"C", trMat4 10 0 0, none, ["A", "B"], none⟩],
    sourceId := some ("A"), cameraPos := ⟨0, 0, 0⟩, cameraFov := 45,
    cameraExmat := idMat4, cameraInmat := idMat4 }

/-- An environment whose current node `"S"` has the single navigable
neighbor `"N"`, whose cursor position is `(0,1,0)`. -/
def envOrth : Env :=
  { panos := [⟨"S", idMat4, none, ["N"], none⟩,
      ⟨"N", trMat4 0 1 0, some ⟨0, 1, 0⟩, [], none⟩],
    sourceId := some ("S"), cameraPos := ⟨0, 0, 0⟩, cameraFov := 45,
    cameraExmat := idMat4, cameraInmat := idMat4 }

/-- A navigator over `envOrth`: the neighbor's cursor position is
orthogonal to the view ray `(1,0,0)` from the origin. -/
def navOrth : Nav :=
  { env := envOrth, targetId := none, cursorVisible := false,
    controlsEnabled := true }

/-- An environment whose current node `"S"` has no navigable
neighbors. -/
def envNoNeighbors : Env :=
  { panos := [⟨"S", idMat4, none, [], none⟩],
    sourceId := some ("S"), cameraPos := ⟨0, 0, 0⟩, cameraFov := 45,
    cameraExmat := idMat4, cameraInmat := idMat4 }

/-- A navigator over `envNoNeighbors`, with a stale target and a
visible cursor left over from an earlier tick. -/
def navNoNeighbors : Nav :=
  { env := envNoNeighbors, targetId := some ("X"), cursorVisible := true,
    controlsEnabled := true }

/-- A navigator over `envTwoAB` targeting `"B"` with the controls
enabled, ready to start a double-click transition. -/
def navAB : Nav :=
  { env := envTwoAB, targetId := some ("B"), cursorVisible := true,
    controlsEnabled := true }

/-- The 3-node path scenario A–B–C: A↔B mutually visible, B↔C mutually
visible, A and C not visible from each other; current node `"A"`. -/
def envPathA : Env :=
  { panos := [⟨"A", idMat4, none, ["B"], some ["B"]⟩,
      ⟨"B", trMat4 5 0 0, none, ["A", "C"], some ["A", "C"]⟩,
      ⟨"C", trMat4 10 0 0, none, ["B"], some ["B"]⟩],
    sourceId := some ("A"), cameraPos := ⟨0, 0, 0⟩, cameraFov := 45,
    cameraExmat := idMat4, cameraInmat := idMat4 }

/-- The same A–B–C graph with current node `"C"`. -/
def envPathC : Env := { envPathA with sourceId := some ("C") }

/-- Path waypoints at the three node positions of the A–B–C graph. -/
def pathPts : List Vec3 := [⟨0, 0, 0⟩, ⟨5, 0, 0⟩, ⟨10, 0, 0⟩]

/-- The overlay built on the A–B–C path: one subpoint per node, each
anchored at that node. -/
def ldPath : LineDrawing := ⟨pathPts, ["A", "B", "C"]⟩

/-- Two panos sharing the position `(0,0,0)`: a distance tie. -/
def envDupPos : Env :=
  { panos := [⟨"A", idMat4, none, [], none⟩, ⟨"B", idMat4, none, [], none⟩],
    sourceId := none, cameraPos := ⟨0, 0, 0⟩, cameraFov := 45,
    cameraExmat := idMat4, cameraInmat := idMat4 }

/-- The pose trace with timestamps `[0, 100, 250]` named by the spec. -/
def demoTrace : List Snapshot :=
  [⟨"a", idMat4, idMat4, 0⟩, ⟨"b", idMat4, idMat4, 100⟩,
    ⟨"c", idMat4, idMat4, 250⟩]

/-- A two-snapshot trace whose timestamps tie at `t = 50`. -/
def tieTrace : List Snapshot :=
  [⟨"a", idMat4, idMat4, 0⟩, ⟨"b", idMat4, idMat4, 100⟩]

/-- C1, counterexample to "ties to the earliest snapshot": at `t = 50`
both snapshots of `tieTrace` minimize `|timestamp − t|` (both distances
are 50), yet replay selects the snapshot at 100 — the later one —
because the JS `reduce` inside `argmin` only keeps the accumulator when
it is strictly smaller.  Also, a replay tick at `t = 400` on the
`[0, 100, 250]` trace stops the session rather than applying the
snapshot at 250 (only the bare selection rule evaluates to 250). -/
theorem replay_ties_counterexample :
    replaySelect tieTrace 50 = some (⟨"b", idMat4, idMat4, 100⟩ : Snapshot) ∧
    |(0 : ℚ) - 50| = |(100 : ℚ) - 50| ∧
    (⟨"b", idMat4, idMat4, 100⟩ : Snapshot) ≠ ⟨"a", idMat4, idMat4, 0⟩ ∧
    replayTick demoTrace 250 400 = .stopped := by
  refine ⟨?_, by norm_num, by simp [Snapshot.mk.injEq], ?_⟩
  · norm_num [replaySelect, keymin, argmin, argminAux, tieTrace]
  · norm_num [replayTick]

/-- C1 (amended): while the elapsed time `t` does not exceed the last
recorded timestamp, the replay tick applies a snapshot of the trace
that minimizes `|timestampMillis − t|` (nearest-neighbor sampling, no
pose interpolation — the applied snapshot is an element of the trace),
with ties resolved to the LATEST such snapshot (every strictly later
entry is strictly farther); the replay terminates once `t` exceeds the
last timestamp.  For the trace with timestamps `[0, 100, 250]`: a tick
at `t = 120` applies the snapshot at 100; at `t = 400` the tick stops
the session, while the bare nearest-neighbor rule evaluates to the
snapshot at 250. -/
theorem replay_nearest_sampling (S : List Snapshot) (sl : Snapshot) (t : ℚ)
    (hlast : S.getLast? = some sl) :
    (t ≤ sl.time → ∃ i, ∃ hi : i < S.length,
      replayTick S sl.time t = .applied (S.get ⟨i, hi⟩) ∧
      (∀ j, ∀ hj : j < S.length,
        |(S.get ⟨i, hi⟩).time - t| ≤ |(S.get ⟨j, hj⟩).time - t|) ∧
      (∀ j, ∀ hj : j < S.length, i < j →
        |(S.get ⟨i, hi⟩).time - t| < |(S.get ⟨j, hj⟩).time - t|)) ∧
    (sl.time < t → replayTick S sl.time t = .stopped) ∧
    replayTick demoTrace 250 120 = .applied ⟨"b", idMat4, idMat4, 100⟩ ∧
    replaySelect demoTrace 400 = some (⟨"c", idMat4, idMat4, 250⟩ : Snapshot) := by
  refine ⟨?_, ?_,
    by norm_num [replayTick, replaySelect, keymin, argmin, argminAux, demoTrace],
    by norm_num [replaySelect, keymin, argmin, argminAux, demoTrace]⟩
  · intro ht
    have hne : S ≠ [] := by
      intro hc
      rw [hc] at hlast
      simp at hlast
    obtain ⟨i, hi, heq, hmin, hafter⟩ :=
      keymin_spec S (fun s => |s.time - t|) hne
    refine ⟨i, hi, ?_, hmin, hafter⟩
    simp only [replayTick, if_neg (not_lt.mpr ht), replaySelect, heq]
  · intro ht
    simp only [replayTick, if_pos ht]

/-- C1 witness: the general sampling theorem instantiated on the
`[0, 100, 250]` trace at `t = 120`. -/
theorem replay_nearest_sampling_witness :
    (120 : ℚ) ≤ (250 : ℚ) ∧
    ∃ i, ∃ hi : i < demoTrace.length,
      replayTick demoTrace 250 120 = .applied (demoTrace.get ⟨i, hi⟩) ∧
      (∀ j, ∀ hj : j < demoTrace.length,
        |(demoTrace.get ⟨i, hi⟩).time - 120| ≤
          |(demoTrace.get ⟨j, hj⟩).time - 120|) ∧
      (∀ j, ∀ hj : j < demoTrace.length, i < j →
        |(demoTrace.get ⟨i, hi⟩).time - 120| <
          |(demoTrace.get ⟨j, hj⟩).time - 120|) :=
  ⟨by norm_num,
    (replay_nearest_sampling demoTrace ⟨"c", idMat4, idMat4, 250⟩ 120
      (by rfl)).1 (by norm_num)⟩

/-- C8, counterexample to "starting replay with an empty recorded
snapshot sequence degrades to a no-op rather than throwing": the stop
handler computes `snapshots[snapshots.length - 1].time` before the
replay loop starts, which on an empty buffer reads a property of
`undefined` and throws a `TypeError`. -/
theorem empty_replay_counterexample :
    startReplay [] = .error .undefinedProperty := by
  rfl

/-- C8 (amended): the replay tick itself never raises on an empty
buffer — it performs no visual update (it either stops, once the
elapsed time exceeds the captured total time, or idles) — but starting
replay with an empty recorded sequence throws a `TypeError` while
computing the last recorded timestamp, before any tick runs. -/
theorem empty_replay_spec (totalTime t : ℚ) :
    (∀ s : Snapshot, replayTick [] totalTime t ≠ .applied s) ∧
    startReplay ([] : List Snapshot) = .error .undefinedProperty := by
  refine ⟨?_, by rfl⟩
  intro s
  simp only [replayTick, replaySelect, keymin, argmin]
  by_cases h : totalTime < t
  · simp [if_pos h]
  · simp [if_neg h]

/-- C8 witness: the amended statement at `totalTime = 0`, `t = 7`. -/
theorem empty_replay_spec_witness :
    (∀ s : Snapshot, replayTick [] 0 7 ≠ .applied s) ∧
    startReplay ([] : List Snapshot) = .error .undefinedProperty :=
  empty_replay_spec 0 7

/-- An unknown id makes `getPanorama` throw `NotFoundError`. -/
theorem getPanorama_not_found (env : Env) (id : String)
    (h : id ∉ nodeIds env) : getPanorama env id = .error (.notFound id) := by
  unfold getPanorama
  have hf : env.panos.find? (fun p => p.id == id) = none := by
    rw [List.find?_eq_none]
    intro p hp hbeq
    exact h (List.mem_map.mpr ⟨p, hp, by simpa using hbeq⟩)
  rw [hf]

/-- A present id makes `getPanorama` succeed with some matching pano. -/
theorem getPanorama_found (env : Env) (id : String)
    (h : id ∈ nodeIds env) :
    ∃ p, getPanorama env id = .ok p ∧ p ∈ env.panos ∧ p.id = id := by
  obtain ⟨p, hp, hpid⟩ := List.mem_map.mp h
  have : ∃ q, env.panos.find? (fun q => q.id == id) = some q := by
    rw [← Option.isSome_iff_exists, List.find?_isSome]
    exact ⟨p, hp, by simpa using hpid⟩
  obtain ⟨q, hq⟩ := this
  refine ⟨q, by simp [getPanorama, hq], List.mem_of_find?_eq_some hq, ?_⟩
  have := List.find?_some hq
  simpa using this

/-- C2, counterexample to "the current-node pointer … [is] not updated"
on `NotFoundError`: `setPanorama` assigns `this.sourceId = id` before
the position lookup that throws, so after a failed call the pointer
holds the unknown id. -/
theorem set_current_node_counterexample :
    (setPanorama envSingleA ("B")).2 = .error (.notFound ("B")) ∧
    (setPanorama envSingleA ("B")).1.sourceId = some ("B") ∧
    envSingleA.sourceId = some ("A") := by
  refine ⟨?_, ?_, rfl⟩ <;> rfl

/-- C2 (amended): `setPanorama` is a no-op when the id is already
current; when no node has the id it fails with `NotFoundError`, leaving
the camera pose untouched but the current-node pointer already
overwritten with the unknown id; otherwise it sets the current node,
moves the camera to the node's position and requests prefetch of the
node's navigable neighbors' materials. -/
theorem set_current_node_spec (env : Env) (id : String) :
    (env.sourceId = some id → setPanorama env id = (env, .ok [])) ∧
    (env.sourceId ≠ some id → id ∉ nodeIds env →
      setPanorama env id =
        ({ env with sourceId := some id }, .error (.notFound id))) ∧
    (∀ p, env.sourceId ≠ some id → getPanorama env id = .ok p →
      setPanorama env id =
        ({ env with sourceId := some id, cameraPos := matPosition p.exmat },
          .ok p.navigable)) := by
  refine ⟨?_, ?_, ?_⟩
  · intro h
    simp [setPanorama, h]
  · intro h hid
    simp [setPanorama, h, getPanorama_not_found env id hid]
  · intro p h hp
    simp [setPanorama, h, hp]

/-- C2 witness: the no-op and success branches on a two-node graph. -/
theorem set_current_node_spec_witness :
    setPanorama envTwoAB ("A") = (envTwoAB, .ok []) ∧
    setPanorama envTwoAB ("B") =
      ({ envTwoAB with sourceId := some ("B"), cameraPos := ⟨5, 0, 0⟩ },
        .ok ["A"]) :=
  ⟨(set_current_node_spec envTwoAB ("A")).1 rfl,
    by
      have := (set_current_node_spec envTwoAB ("B")).2.2
        (envTwoAB.panos.get ⟨1, by simp [envTwoAB]⟩) (by simp [envTwoAB])
        (by rfl)
      simpa [envTwoAB, trMat4, matPosition] using this⟩

/-- Squared distances are nonnegative. -/
theorem distSq_nonneg (a b : Vec3) : 0 ≤ Vec3.distSq a b := by
  unfold Vec3.distSq
  positivity

/-- A squared distance vanishes exactly between equal points. -/
theorem distSq_eq_zero (a b : Vec3) : Vec3.distSq a b = 0 ↔ a = b := by
  unfold Vec3.distSq
  constructor
  · intro h
    have hx : (a.x - b.x) ^ 2 = 0 := by
      nlinarith [sq_nonneg (a.x - b.x), sq_nonneg (a.y - b.y), sq_nonneg (a.z - b.z)]
    have hy : (a.y - b.y) ^ 2 = 0 := by
      nlinarith [sq_nonneg (a.x - b.x), sq_nonneg (a.y - b.y), sq_nonneg (a.z - b.z)]
    have hz : (a.z - b.z) ^ 2 = 0 := by
      nlinarith [sq_nonneg (a.x - b.x), sq_nonneg (a.y - b.y), sq_nonneg (a.z - b.z)]
    have hx' : a.x = b.x := by
      have := pow_eq_zero_iff (n := 2) (by omega) |>.mp hx
      linarith [sub_eq_zero.mp this]
    have hy' : a.y = b.y := by
      have := pow_eq_zero_iff (n := 2) (by omega) |>.mp hy
      linarith [sub_eq_zero.mp this]
    have hz' : a.z = b.z := by
      have := pow_eq_zero_iff (n := 2) (by omega) |>.mp hz
      linarith [sub_eq_zero.mp this]
    cases a; cases b
    simp_all
  · intro h
    rw [h]
    ring

/-- With unique node ids, looking a member pano up by its own id finds
that very pano. -/
theorem find_id_self (l : List Panorama)
    (h : (l.map (fun p => p.id)).Nodup) (p : Panorama) (hp : p ∈ l) :
    l.find? (fun q => q.id == p.id) = some p := by
  induction l with
  | nil => simp at hp
  | cons a l ih =>
    simp only [List.map_cons, List.nodup_cons] at h
    rcases List.mem_cons.mp hp with rfl | hp'
    · simp [List.find?]
    · have hne : (a.id == p.id) = false := by
        rw [beq_eq_false_iff_ne]
        intro hc
        exact h.1 (hc ▸ List.mem_map.mpr ⟨p, hp', rfl⟩)
      simp only [List.find?, hne]
      exact ih h.2 hp'

/-- With unique node ids, `getPositionD` of a member pano's id is that
pano's own extrinsic translation. -/
theorem getPositionD_self (env : Env) (h : (nodeIds env).Nodup)
    (p : Panorama) (hp : p ∈ env.panos) :
    getPositionD env p.id = matPosition p.exmat := by
  unfold getPositionD
  rw [find_id_self env.panos h p hp]

/-- C6 (amended): `getClosest` returns the id of a pano whose position
(derived from its extrinsic) minimizes the (squared) Euclidean distance
to the query point, with ties broken by the LAST occurrence in storage
order (every strictly later pano is strictly farther); and it is
idempotent — calling it on one of the graph's own node positions
returns that node's id — provided node ids are unique and node
positions are pairwise distinct. -/
theorem closest_node_spec (env : Env) (pos : Vec3)
    (hne : env.panos ≠ []) :
    (∃ i, ∃ hi : i < env.panos.length,
      getClosest env pos = some ((env.panos.get ⟨i, hi⟩).id) ∧
      (∀ j, ∀ hj : j < env.panos.length,
        Vec3.distSq (getPositionD env ((env.panos.get ⟨i, hi⟩).id)) pos ≤
          Vec3.distSq (getPositionD env ((env.panos.get ⟨j, hj⟩).id)) pos) ∧
      (∀ j, ∀ hj : j < env.panos.length, i < j →
        Vec3.distSq (getPositionD env ((env.panos.get ⟨i, hi⟩).id)) pos <
          Vec3.distSq (getPositionD env ((env.panos.get ⟨j, hj⟩).id)) pos)) ∧
    ((nodeIds env).Nodup →
      (∀ p ∈ env.panos, ∀ q ∈ env.panos,
        matPosition p.exmat = matPosition q.exmat → p = q) →
      ∀ p ∈ env.panos, getClosest env (matPosition p.exmat) = some p.id) := by
  constructor
  · obtain ⟨i, hi, heq, hmin, hafter⟩ :=
      keymin_spec env.panos
        (fun p => Vec3.distSq (getPositionD env p.id) pos) hne
    exact ⟨i, hi, by simp [getClosest, heq], hmin, hafter⟩
  · intro hnd hinj p hp
    obtain ⟨i, hi, heq, hmin, _⟩ :=
      keymin_spec env.panos
        (fun q => Vec3.distSq (getPositionD env q.id) (matPosition p.exmat))
        hne
    have hqi : env.panos.get ⟨i, hi⟩ ∈ env.panos := List.get_mem _ _ _
    obtain ⟨⟨j, hj⟩, hpj⟩ := List.mem_iff_get.mp hp
    have hzero :
        Vec3.distSq (getPositionD env ((env.panos.get ⟨j, hj⟩).id))
          (matPosition p.exmat) = 0 := by
      rw [hpj, getPositionD_self env hnd p hp, distSq_eq_zero]
    have hle := hmin j hj
    rw [hzero] at hle
    have hzi :
        Vec3.distSq (getPositionD env ((env.panos.get ⟨i, hi⟩).id))
          (matPosition p.exmat) = 0 :=
      le_antisymm hle (distSq_nonneg _ _)
    rw [getPositionD_self env hnd _ hqi, distSq_eq_zero] at hzi
    have : env.panos.get ⟨i, hi⟩ = p := hinj _ hqi p hp hzi
    simp only [getClosest, heq, Option.map]
    rw [← this]

/-- C6, counterexample to "ties broken by first occurrence" (and to
unconditional idempotence): two panos `"A"` then `"B"` share the
position `(0,0,0)`; querying at node A's own position returns `"B"`,
the LAST pano at minimal (zero) distance. -/
theorem closest_node_counterexample :
    envDupPos.panos.map (fun p => p.id) = ["A", "B"] ∧
    getPositionD envDupPos ("A") = getPositionD envDupPos ("B") ∧
    getClosest envDupPos (getPositionD envDupPos ("A")) = some ("B") := by
  refine ⟨rfl, rfl, ?_⟩
  have hA : getPositionD envDupPos ("A") = ⟨0, 0, 0⟩ := rfl
  have hB : getPositionD envDupPos ("B") = ⟨0, 0, 0⟩ := rfl
  have hp : envDupPos.panos =
      [⟨"A", idMat4, none, [], none⟩, ⟨"B", idMat4, none, [], none⟩] := rfl
  simp only [getClosest, keymin, hp, List.map_cons, List.map_nil, hA, hB]
  norm_num [argmin, argminAux, Vec3.distSq]

/-- C6 witness: the minimality part on the two-node graph, and the
idempotence part at node `"B"` of the same graph. -/
theorem closest_node_spec_witness :
    (∃ i, ∃ hi : i < envTwoAB.panos.length,
      getClosest envTwoAB ⟨4, 0, 0⟩ =
        some ((envTwoAB.panos.get ⟨i, hi⟩).id) ∧
      (∀ j, ∀ hj : j < envTwoAB.panos.length,
        Vec3.distSq (getPositionD envTwoAB ((envTwoAB.panos.get ⟨i, hi⟩).id))
            ⟨4, 0, 0⟩ ≤
          Vec3.distSq (getPositionD envTwoAB
            ((envTwoAB.panos.get ⟨j, hj⟩).id)) ⟨4, 0, 0⟩) ∧
      (∀ j, ∀ hj : j < envTwoAB.panos.length, i < j →
        Vec3.distSq (getPositionD envTwoAB ((envTwoAB.panos.get ⟨i, hi⟩).id))
            ⟨4, 0, 0⟩ <
          Vec3.distSq (getPositionD envTwoAB
            ((envTwoAB.panos.get ⟨j, hj⟩).id)) ⟨4, 0, 0⟩)) ∧
    getClosest envTwoAB
      (matPosition ((envTwoAB.panos.get ⟨1, by simp [envTwoAB]⟩).exmat)) =
      some ((envTwoAB.panos.get ⟨1, by simp [envTwoAB]⟩).id) :=
  ⟨(closest_node_spec envTwoAB ⟨4, 0, 0⟩ (by simp [envTwoAB])).1,
    (closest_node_spec envTwoAB
        (matPosition ((envTwoAB.panos.get ⟨1, by simp [envTwoAB]⟩).exmat))
        (by simp [envTwoAB])).2
      (by simp [envTwoAB, nodeIds])
      (by
        intro p hp q hq hpq
        simp only [envTwoAB, List.mem_cons, List.mem_singleton,
          List.not_mem_nil, or_false] at hp hq
        rcases hp with rfl | rfl
        · rcases hq with rfl | rfl
          · rfl
          · exfalso
            simp only [matPosition, idMat4, trMat4, Vec3.mk.injEq] at hpq
            norm_num at hpq
        · rcases hq with rfl | rfl
          · exfalso
            simp only [matPosition, idMat4, trMat4, Vec3.mk.injEq] at hpq
            norm_num at hpq
          · rfl)
      (envTwoAB.panos.get ⟨1, by simp [envTwoAB]⟩) (List.get_mem _ _ _)⟩

/-- A `filterMap` whose function keeps every member unchanged is the
identity. -/
theorem filterMap_eq_self_of {α : Type} (l : List α) (f : α → Option α)
    (h : ∀ a ∈ l, f a = some a) : l.filterMap f = l := by
  induction l with
  | nil => rfl
  | cons a l ih =>
    rw [List.filterMap_cons, h a (by simp)]
    rw [ih (fun b hb => h b (by simp [hb]))]

/-- Pruning maps the id list through a plain filter. -/
theorem map_id_filterMap_pruneNode (l : List Panorama) (ids : List String) :
    (l.filterMap (pruneNode ids)).map (fun p => p.id) =
      (l.map (fun p => p.id)).filter (fun x => !ids.contains x) := by
  induction l with
  | nil => rfl
  | cons p l ih =>
    by_cases h : p.id ∈ ids <;>
      simp [pruneNode, h, ih, List.filter_cons]

/-- The node-id list produced by a successful prune. -/
theorem nodeIds_prune (env : Env) (ids : List String) (env' : Env)
    (h : prunePanoramas env ids = .ok env') :
    nodeIds env' = (nodeIds env).filter (fun x => !ids.contains x) := by
  unfold prunePanoramas at h
  split at h
  · exact absurd h (by simp)
  · simp only [Except.ok.injEq] at h
    rw [← h]
    exact map_id_filterMap_pruneNode env.panos ids

/-- A successful prune leaves `sourceId` untouched. -/
theorem sourceId_prune (env : Env) (ids : List String) (env' : Env)
    (h : prunePanoramas env ids = .ok env') : env'.sourceId = env.sourceId := by
  unfold prunePanoramas at h
  split at h
  · exact absurd h (by simp)
  · simp only [Except.ok.injEq] at h
    rw [← h]

/-- Membership in a pruned id list, in terms of the original graph. -/
theorem mem_nodeIds_prune (env : Env) (ids : List String) (env' : Env)
    (h : prunePanoramas env ids = .ok env') (x : String) :
    x ∈ nodeIds env' ↔ x ∈ nodeIds env ∧ x ∉ ids := by
  rw [nodeIds_prune env ids env' h]
  simp

/-- C4: `prunePanoramas` fails with `InvariantViolation` exactly when
the current node is named; otherwise it removes exactly the named nodes
(the surviving id list is the original one filtered), rewrites every
remaining pano by stripping the named ids from its `navigable` and
`visible` lists, and preserves the graph invariant: if every adjacency
id referred to a present node before, the same holds afterwards (no
dangling ids). -/
theorem prune_nodes_spec (env : Env) (ids : List String) :
    ((∃ s ∈ ids, env.sourceId = some s) →
      prunePanoramas env ids = .error .cannotPruneCurrent) ∧
    ((∀ s ∈ ids, env.sourceId ≠ some s) → ∃ env',
      prunePanoramas env ids = .ok env' ∧
      nodeIds env' = (nodeIds env).filter (fun x => !ids.contains x) ∧
      (∀ p ∈ env'.panos, ∃ q ∈ env.panos, q.id ∉ ids ∧
        p = { q with
          navigable := q.navigable.filter (fun x => !ids.contains x),
          visible := q.visible.map (List.filter (fun x => !ids.contains x)) }) ∧
      (adjClosed env → adjClosed env')) := by
  constructor
  · intro ⟨s, hs, hsrc⟩
    have hcond : (match env.sourceId with
        | some s => ids.contains s
        | none => false) = true := by
      rw [hsrc]
      simpa using hs
    unfold prunePanoramas
    rw [if_pos hcond]
  · intro hsrc
    have hguard : (match env.sourceId with
        | some s => ids.contains s
        | none => false) = false := by
      cases h : env.sourceId with
      | none => rfl
      | some s =>
        show ids.contains s = false
        by_contra hc
        rw [Bool.not_eq_false] at hc
        exact hsrc s (by simpa using hc) h
    have hok : prunePanoramas env ids =
        .ok { env with panos := env.panos.filterMap (pruneNode ids) } := by
      unfold prunePanoramas
      rw [if_neg (by rw [hguard]; exact Bool.false_ne_true)]
    refine ⟨_, hok, nodeIds_prune env ids _ hok, ?_, ?_⟩
    · intro p hp
      simp only [List.mem_filterMap] at hp
      obtain ⟨q, hq, hfq⟩ := hp
      unfold pruneNode at hfq
      by_cases h : ids.contains q.id
      · rw [if_pos h] at hfq
        exact Option.noConfusion hfq
      · rw [if_neg h] at hfq
        simp only [Option.some.injEq] at hfq
        exact ⟨q, hq, by simpa using h, hfq.symm⟩
    · intro hclosed p' hp'
      simp only [List.mem_filterMap] at hp'
      obtain ⟨q, hq, hfq⟩ := hp'
      unfold pruneNode at hfq
      by_cases h : ids.contains q.id
      · rw [if_pos h] at hfq
        exact Option.noConfusion hfq
      · rw [if_neg h] at hfq
        simp only [Option.some.injEq] at hfq
        obtain ⟨hnav, hvis⟩ := hclosed q hq
        constructor
        · intro x hx
          rw [← hfq] at hx
          simp only [List.mem_filter] at hx
          rw [mem_nodeIds_prune env ids _ hok]
          exact ⟨hnav x hx.1, by simpa using hx.2⟩
        · intro x hx
          rw [← hfq] at hx
          simp only at hx
          match hv : q.visible with
          | none => rw [hv] at hx; simp at hx
          | some v =>
            rw [hv] at hx
            simp only [Option.map_some', Option.getD_some, List.mem_filter] at hx
            rw [mem_nodeIds_prune env ids _ hok]
            refine ⟨hvis x (by rw [hv]; simpa using hx.1), by simpa using hx.2⟩

/-- C4 witness: pruning `"C"` from a three-node graph whose current
node is `"A"` removes `"C"` and strips it from the adjacency lists. -/
theorem prune_nodes_spec_witness :
    (∀ s ∈ ["C"], envThreeABC.sourceId ≠ some s) ∧
    ∃ env', prunePanoramas envThreeABC ["C"] = .ok env' ∧
      nodeIds env' =
        (nodeIds envThreeABC).filter (fun x => !(["C"].contains x)) ∧
      (∀ p ∈ env'.panos, ∃ q ∈ envThreeABC.panos, q.id ∉ ["C"] ∧
        p = { q with
          navigable := q.navigable.filter (fun x => !(["C"].contains x)),
          visible :=
            q.visible.map (List.filter (fun x => !(["C"].contains x))) }) ∧
      (adjClosed envThreeABC → adjClosed env') :=
  ⟨by simp [envThreeABC], (prune_nodes_spec envThreeABC ["C"]).2
    (by simp [envThreeABC])⟩

/-- The complement list built by `keepPanoramas` is a plain filter of
the node-id list. -/
theorem complement_eq_filter (l : List Panorama) (ids : List String) :
    l.filterMap (fun p => if ids.contains p.id then none else some p.id) =
      (l.map (fun p => p.id)).filter (fun x => !ids.contains x) := by
  induction l with
  | nil => rfl
  | cons p l ih =>
    by_cases h : p.id ∈ ids <;>
      simp [h, List.filter_cons] at ih ⊢ <;> exact ih

/-- Removing the complement of `K` after removing `P` reaches the same
id list as the two steps in the other order. -/
theorem filter_complement_comm (N P K : List String) :
    ((N.filter (fun x => !P.contains x)).filter
        (fun x => !((N.filter (fun x => !P.contains x)).filter
          (fun x => !K.contains x)).contains x)) =
      ((N.filter (fun x => !(N.filter (fun x => !K.contains x)).contains x)).filter
        (fun x => !P.contains x)) := by
  have hL : ((N.filter (fun x => !P.contains x)).filter
      (fun x => !((N.filter (fun x => !P.contains x)).filter
        (fun x => !K.contains x)).contains x)) =
      ((N.filter (fun x => !P.contains x)).filter
        (fun x => K.contains x)) := by
    apply List.filter_congr
    intro x hx
    simp only [List.mem_filter, Bool.not_eq_true'] at hx
    simp [List.mem_filter, hx.1, by simpa using hx.2]
  have hR : (N.filter (fun x => !(N.filter (fun x => !K.contains x)).contains x)) =
      (N.filter (fun x => K.contains x)) := by
    apply List.filter_congr
    intro x hx
    simp [List.mem_filter, hx]
  rw [hL, hR, List.filter_filter, List.filter_filter]
  apply List.filter_congr
  intro x hx
  rw [Bool.and_comm]

/-- C5: `keepOnly(ids)` prunes exactly the complement of `ids` within
the graph's current node set, and for every graph and every pair of
disjoint id lists `P` and `K`, pruning `P` then keeping `K` produces
the same outcome (the same resulting node-id list, and the same error
when the current node would be pruned) as keeping `K` then pruning
`P`. -/
theorem keep_only_spec (env : Env) (ids P K : List String)
    (_hdisj : ∀ x ∈ P, x ∉ K) :
    keepPanoramas env ids =
      prunePanoramas env ((nodeIds env).filter (fun x => !ids.contains x)) ∧
    Except.map nodeIds
        ((prunePanoramas env P).bind (fun e => keepPanoramas e K)) =
      Except.map nodeIds
        ((keepPanoramas env K).bind (fun e => prunePanoramas e P)) := by
  have hkeep : ∀ e : Env, keepPanoramas e K =
      prunePanoramas e ((nodeIds e).filter (fun x => !K.contains x)) := by
    intro e
    unfold keepPanoramas
    rw [complement_eq_filter e.panos K]
    rfl
  have hg_some : ∀ (e : Env) (s : String) (ids2 : List String),
      e.sourceId = some s →
      prunePanoramas e ids2 =
        if ids2.contains s then .error .cannotPruneCurrent
        else .ok { e with panos := e.panos.filterMap (pruneNode ids2) } := by
    intro e s ids2 hes
    simp [prunePanoramas, hes]
  have hg_none : ∀ (e : Env) (ids2 : List String),
      e.sourceId = none →
      prunePanoramas e ids2 =
        .ok { e with panos := e.panos.filterMap (pruneNode ids2) } := by
    intro e ids2 hes
    simp [prunePanoramas, hes]
  have hnodes : ∀ (e : Env) (ids2 : List String),
      nodeIds { e with panos := e.panos.filterMap (pruneNode ids2) } =
        (nodeIds e).filter (fun x => !ids2.contains x) :=
    fun e ids2 => map_id_filterMap_pruneNode e.panos ids2
  constructor
  · unfold keepPanoramas
    rw [complement_eq_filter env.panos ids]
    rfl
  · cases hs : env.sourceId with
    | none =>
      obtain ⟨e1, h1, hs1, hn1⟩ : ∃ e1, prunePanoramas env P = .ok e1 ∧
          e1.sourceId = none ∧
          nodeIds e1 = (nodeIds env).filter (fun x => !P.contains x) :=
        ⟨_, hg_none env P hs, hs, hnodes env P⟩
      obtain ⟨e2, h2, hs2, hn2⟩ : ∃ e2,
          prunePanoramas env
            ((nodeIds env).filter (fun x => !K.contains x)) = .ok e2 ∧
          e2.sourceId = none ∧
          nodeIds e2 = (nodeIds env).filter
            (fun x => !((nodeIds env).filter
              (fun x => !K.contains x)).contains x) :=
        ⟨_, hg_none env _ hs, hs, hnodes env _⟩
      obtain ⟨e3, h3, hn3⟩ : ∃ e3,
          prunePanoramas e1
            ((nodeIds e1).filter (fun x => !K.contains x)) = .ok e3 ∧
          nodeIds e3 = (nodeIds e1).filter
            (fun x => !((nodeIds e1).filter
              (fun x => !K.contains x)).contains x) :=
        ⟨_, hg_none e1 _ hs1, hnodes e1 _⟩
      obtain ⟨e4, h4, hn4⟩ : ∃ e4, prunePanoramas e2 P = .ok e4 ∧
          nodeIds e4 = (nodeIds e2).filter (fun x => !P.contains x) :=
        ⟨_, hg_none e2 P hs2, hnodes e2 P⟩
      rw [h1, hkeep env, h2]
      simp only [Except.bind]
      rw [hkeep e1, h3, h4]
      simp only [Except.map]
      congr 1
      rw [hn3, hn1, hn4, hn2]
      exact filter_complement_comm (nodeIds env) P K
    | some s =>
      by_cases hsP : s ∈ P
      · have hL : prunePanoramas env P = .error .cannotPruneCurrent := by
          rw [hg_some env s P hs, if_pos (by simpa using hsP)]
        by_cases hsC2 : s ∈ (nodeIds env).filter (fun x => !K.contains x)
        · have hR : prunePanoramas env
              ((nodeIds env).filter (fun x => !K.contains x)) =
              .error .cannotPruneCurrent := by
            rw [hg_some env s _ hs, if_pos (by simpa using hsC2)]
          rw [hL, hkeep env, hR]
          rfl
        · obtain ⟨e2, h2, hs2⟩ : ∃ e2, prunePanoramas env
              ((nodeIds env).filter (fun x => !K.contains x)) = .ok e2 ∧
              e2.sourceId = some s :=
            ⟨{ env with panos := env.panos.filterMap (pruneNode
                ((nodeIds env).filter (fun x => !K.contains x))) },
              by rw [hg_some env s _ hs, if_neg (by simpa using hsC2)], hs⟩
          have hR : prunePanoramas e2 P = .error .cannotPruneCurrent := by
            rw [hg_some e2 s P hs2, if_pos (by simpa using hsP)]
          rw [hL, hkeep env, h2]
          simp only [Except.bind]
          rw [hR]
      · obtain ⟨e1, h1, hs1, hn1⟩ : ∃ e1, prunePanoramas env P = .ok e1 ∧
            e1.sourceId = some s ∧
            nodeIds e1 = (nodeIds env).filter (fun x => !P.contains x) :=
          ⟨{ env with panos := env.panos.filterMap (pruneNode P) },
            by rw [hg_some env s P hs, if_neg (by simpa using hsP)], hs,
            hnodes env P⟩
        have hC1C2 : s ∈ (nodeIds e1).filter (fun x => !K.contains x) ↔
            s ∈ (nodeIds env).filter (fun x => !K.contains x) := by
          rw [hn1]
          simp [List.mem_filter, hsP]
        by_cases hsC2 : s ∈ (nodeIds env).filter (fun x => !K.contains x)
        · have hL2 : prunePanoramas e1
              ((nodeIds e1).filter (fun x => !K.contains x)) =
              .error .cannotPruneCurrent := by
            rw [hg_some e1 s _ hs1,
              if_pos (by simpa using hC1C2.mpr hsC2)]
          have hR : prunePanoramas env
              ((nodeIds env).filter (fun x => !K.contains x)) =
              .error .cannotPruneCurrent := by
            rw [hg_some env s _ hs, if_pos (by simpa using hsC2)]
          rw [h1, hkeep env, hR]
          simp only [Except.bind]
          rw [hkeep e1, hL2]
        · obtain ⟨e3, h3, hn3⟩ : ∃ e3, prunePanoramas e1
              ((nodeIds e1).filter (fun x => !K.contains x)) = .ok e3 ∧
              nodeIds e3 = (nodeIds e1).filter
                (fun x => !((nodeIds e1).filter
                  (fun x => !K.contains x)).contains x) :=
            ⟨{ e1 with panos := e1.panos.filterMap (pruneNode
                ((nodeIds e1).filter (fun x => !K.contains x))) },
              by
                rw [hg_some e1 s _ hs1,
                  if_neg (by simpa using (fun hc => hsC2 (hC1C2.mp hc)))],
              hnodes e1 _⟩
          obtain ⟨e2, h2, hs2, hn2⟩ : ∃ e2, prunePanoramas env
                ((nodeIds env).filter (fun x => !K.contains x)) = .ok e2 ∧
              e2.sourceId = some s ∧
              nodeIds e2 = (nodeIds env).filter
                (fun x => !((nodeIds env).filter
                  (fun x => !K.contains x)).contains x) :=
            ⟨{ env with panos := env.panos.filterMap (pruneNode
                ((nodeIds env).filter (fun x => !K.contains x))) },
              by rw [hg_some env s _ hs, if_neg (by simpa using hsC2)], hs,
              hnodes env _⟩
          obtain ⟨e4, h4, hn4⟩ : ∃ e4, prunePanoramas e2 P = .ok e4 ∧
              nodeIds e4 = (nodeIds e2).filter (fun x => !P.contains x) :=
            ⟨{ e2 with panos := e2.panos.filterMap (pruneNode P) },
              by rw [hg_some e2 s P hs2, if_neg (by simpa using hsP)],
              hnodes e2 P⟩
          rw [h1, hkeep env, h2]
          simp only [Except.bind]
          rw [hkeep e1, h3, h4]
          simp only [Except.map]
          congr 1
          rw [hn3, hn1, hn4, hn2]
          exact filter_complement_comm (nodeIds env) P K


/-- C5 witness: the equivalence and the commutation on the two-node
graph with `ids = K = ["A"]` and `P = ["B"]` (disjoint). -/
theorem keep_only_spec_witness :
    keepPanoramas envTwoAB ["A"] =
      prunePanoramas envTwoAB
        ((nodeIds envTwoAB).filter (fun x => !(["A"].contains x))) ∧
    Except.map nodeIds
        ((prunePanoramas envTwoAB ["B"]).bind
          (fun e => keepPanoramas e ["A"])) =
      Except.map nodeIds
        ((keepPanoramas envTwoAB ["A"]).bind
          (fun e => prunePanoramas e ["B"])) :=
  keep_only_spec envTwoAB ["A"] ["B"] ["A"] (by decide)

/-- C10: pruning a set of ids, none of which names a node of the graph
and none of which equals the current node id, raises no error and
returns the graph completely unchanged (the silent acceptance of
unknown ids).  The graph is assumed to satisfy the adjacency invariant
of the data model (§3), so the strip pass has nothing to remove. -/
theorem prune_unknown_noop (env : Env) (ids : List String)
    (hclosed : adjClosed env)
    (hno : ∀ x ∈ ids, x ∉ nodeIds env)
    (hsrc : ∀ s ∈ ids, env.sourceId ≠ some s) :
    prunePanoramas env ids = .ok env := by
  have hguard : (match env.sourceId with
      | some s => ids.contains s
      | none => false) = false := by
    cases h : env.sourceId with
    | none => rfl
    | some s =>
      show ids.contains s = false
      by_contra hc
      rw [Bool.not_eq_false] at hc
      exact hsrc s (by simpa using hc) h
  have hcont : ∀ p ∈ env.panos, ids.contains p.id = false := by
    intro p hp
    by_contra hc
    rw [Bool.not_eq_false] at hc
    exact hno p.id (by simpa using hc) (List.mem_map.mpr ⟨p, hp, rfl⟩)
  have heach : ∀ p ∈ env.panos, pruneNode ids p = some p := by
    intro p hp
    unfold pruneNode
    rw [if_neg (by rw [hcont p hp]; exact Bool.false_ne_true)]
    obtain ⟨hnav, hvis⟩ := hclosed p hp
    have h1 : p.navigable.filter (fun x => !ids.contains x) = p.navigable := by
      rw [List.filter_eq_self]
      intro x hx
      have := hnav x hx
      by_contra hc
      simp only [Bool.not_eq_true, Bool.not_eq_false] at hc
      exact hno x (by simpa using hc) this
    have h2 : p.visible.map (List.filter (fun x => !ids.contains x)) =
        p.visible := by
      match hv : p.visible with
      | none => rfl
      | some v =>
        simp only [Option.map_some', Option.some.injEq]
        rw [List.filter_eq_self]
        intro x hx
        have := hvis x (by rw [hv]; simpa using hx)
        by_contra hc
        simp only [Bool.not_eq_true, Bool.not_eq_false] at hc
        exact hno x (by simpa using hc) this
    rw [h1, h2]
  unfold prunePanoramas
  rw [if_neg (by rw [hguard]; exact Bool.false_ne_true)]
  rw [filterMap_eq_self_of env.panos (pruneNode ids) heach]

/-- C10 witness: pruning the absent id `"Z"` from the three-node graph
returns the graph unchanged. -/
theorem prune_unknown_noop_witness :
    prunePanoramas envThreeABC ["Z"] = .ok envThreeABC :=
  prune_unknown_noop envThreeABC ["Z"] (by decide) (by decide) (by decide)

/-- A successful `mapExcept` preserves length. -/
theorem mapExcept_ok_length {α β : Type} (f : α → Except JsError β) :
    ∀ (l : List α) (bs : List β), mapExcept f l = .ok bs →
      bs.length = l.length := by
  intro l
  induction l with
  | nil =>
    intro bs h
    simp only [mapExcept, Except.ok.injEq] at h
    subst h
    rfl
  | cons a l ih =>
    intro bs h
    simp only [mapExcept] at h
    cases hfa : f a with
    | error e => rw [hfa] at h; exact Except.noConfusion h
    | ok b =>
      rw [hfa] at h
      cases hrest : mapExcept f l with
      | error e => rw [hrest] at h; exact Except.noConfusion h
      | ok bs2 =>
        rw [hrest] at h
        simp only [Except.ok.injEq] at h
        rw [← h]
        simp [ih bs2 hrest]

/-- A pointwise-successful function maps through `mapExcept` as a plain
`List.map`. -/
theorem mapExcept_congr_ok {α β : Type} (f : α → Except JsError β)
    (g : α → β) :
    ∀ l : List α, (∀ a ∈ l, f a = .ok (g a)) →
      mapExcept f l = .ok (l.map g) := by
  intro l
  induction l with
  | nil => intro _; rfl
  | cons a l ih =>
    intro h
    simp only [mapExcept, h a (by simp),
      ih (fun b hb => h b (by simp [hb])), List.map_cons]

/-- A successful `mapOption` preserves length and acts pointwise. -/
theorem mapOption_some_get {α β : Type} (f : α → Option β) :
    ∀ (l : List α) (bs : List β), mapOption f l = some bs →
      bs.length = l.length ∧
      ∀ i, ∀ hi : i < l.length, ∀ hib : i < bs.length,
        f (l.get ⟨i, hi⟩) = some (bs.get ⟨i, hib⟩) := by
  intro l
  induction l with
  | nil =>
    intro bs h
    simp only [mapOption, Option.some.injEq] at h
    subst h
    exact ⟨rfl, fun i hi => by simp at hi⟩
  | cons a l ih =>
    intro bs h
    simp only [mapOption] at h
    cases hfa : f a with
    | none => rw [hfa] at h; exact Option.noConfusion h
    | some b =>
      rw [hfa] at h
      cases hrest : mapOption f l with
      | none => rw [hrest] at h; exact Option.noConfusion h
      | some bs2 =>
        rw [hrest] at h
        simp only [Option.some.injEq] at h
        subst h
        obtain ⟨hlen, hget⟩ := ih bs2 hrest
        refine ⟨by simp [hlen], ?_⟩
        intro i hi hib
        match i with
        | 0 => simpa using hfa
        | i + 1 =>
          have := hget i (by simpa using Nat.lt_of_succ_lt_succ hi)
            (by simpa using Nat.lt_of_succ_lt_succ hib)
          simpa using this

/-- C3 (amended): on a tick with a current node set, when the current
node has at least one navigable neighbor the selected target, if any,
is a neighbor whose cursor position has NONNEGATIVE dot product with
the view ray (strictly negative dot products are never selected —
orthogonal ones are admissible) and whose (squared) ray-to-point
distance is minimal among all such candidates, and the cursor is shown;
when the neighbor list is nonempty but no candidate qualifies, no
target is selected and the cursor is hidden; when the current node has
ZERO navigable neighbors, the selection block is skipped entirely and
the previous target and cursor visibility persist unchanged. -/
theorem target_selection_spec (nav : Nav) (o d : Vec3) (sid : String)
    (h1 : nav.env.sourceId = some sid) (h2 : sid ≠ "")
    (ns : List String) (h3 : getNavigable nav.env sid = .ok ns)
    (ps : List Vec3) (h4 : mapExcept (getCurpos nav.env) ns = .ok ps) :
    (ns = [] → navUpdate nav o d = .ok nav) ∧
    (ns ≠ [] → selectIndex o d ps = none →
      navUpdate nav o d =
        .ok { nav with cursorVisible := false, targetId := none }) ∧
    (∀ i, ns ≠ [] → selectIndex o d ps = some i →
      ∃ hi : i < ns.length, ∃ hip : i < ps.length,
        navUpdate nav o d =
          .ok { nav with
            cursorVisible := true,
            targetId := some (ns.get ⟨i, hi⟩) } ∧
        0 ≤ Vec3.dot ((ps.get ⟨i, hip⟩).sub o) d ∧
        (∀ j, ∀ hj : j < ps.length,
          0 ≤ Vec3.dot ((ps.get ⟨j, hj⟩).sub o) d →
            distSqToRay o d (ps.get ⟨i, hip⟩) ≤
              distSqToRay o d (ps.get ⟨j, hj⟩))) := by
  refine ⟨?_, ?_, ?_⟩
  · intro hns
    simp [navUpdate, h1, h2, h3, hns]
  · intro hns hsel
    simp [navUpdate, h1, h2, h3, hns, h4, hsel]
  · intro i hns hsel
    have hlen : ps.length = ns.length := mapExcept_ok_length _ ns ps h4
    have hpsne : ps ≠ [] := by
      intro hc
      rw [hc] at hlen
      exact hns (List.length_eq_zero.mp hlen.symm)
    have hdne : navDists o d ps ≠ [] := by
      simp [navDists, hpsne]
    obtain ⟨i0, hi0, heq0, hmin0, _⟩ := argmin_spec (navDists o d ps) hdne
    have hchg : (if (navDists o d ps).getD i0 ⊤ = ⊤ then (none : Option Nat)
        else some i0) = some i := by
      have h5 := hsel
      unfold selectIndex at h5
      rw [heq0] at h5
      exact h5
    have hTd : (navDists o d ps).getD i0 ⊤ ≠ ⊤ := by
      intro hT
      rw [if_pos hT] at hchg
      exact Option.noConfusion hchg
    have hii0 : i0 = i := by
      rw [if_neg hTd] at hchg
      simpa using hchg
    subst hii0
    have hilen : i0 < ps.length := by simpa [navDists] using hi0
    have hgetD : (navDists o d ps).getD i0 ⊤ = (navDists o d ps).get ⟨i0, hi0⟩ := by
      rw [List.getD_eq_getElem?_getD, List.getElem?_eq_getElem hi0]
      rfl
    have hT : (navDists o d ps).get ⟨i0, hi0⟩ ≠ ⊤ := by
      rw [← hgetD]
      exact hTd
    have hdist : ∀ j, ∀ hj : j < ps.length,
        (navDists o d ps).get ⟨j, by simpa [navDists]⟩ =
          if Vec3.dot ((ps.get ⟨j, hj⟩).sub o) d < 0 then (⊤ : WithTop ℚ)
          else ((distSqToRay o d (ps.get ⟨j, hj⟩) : ℚ) : WithTop ℚ) := by
      intro j hj
      simp [navDists]
    have hfront : 0 ≤ Vec3.dot ((ps.get ⟨i0, hilen⟩).sub o) d := by
      by_contra hc
      apply hT
      rw [hdist i0 hilen, if_pos (by linarith [not_le.mp hc])]
    refine ⟨by omega, hilen, ?_, hfront, ?_⟩
    · simp only [navUpdate, h1]
      rw [if_neg h2]
      · simp only [h3, h4]
        rw [if_neg hns]
        simp only [hsel]
        congr 2
        rw [List.get?_eq_get (by omega)]
    · intro j hj hjfront
      have hmj := hmin0 j (by simpa [navDists] using hj)
      rw [hdist i0 hilen, if_neg (not_lt.mpr hfront)] at hmj
      rw [hdist j hj, if_neg (not_lt.mpr hjfront)] at hmj
      exact_mod_cast hmj

/-- C3, counterexample to the claim's "non-positive dot product is
never selected" and "zero navigable neighbors hides the cursor": (i) a
neighbor whose cursor direction is exactly ORTHOGONAL to the view ray
(dot product zero) is selected as the target, because the code rejects
only strictly negative dot products; (ii) when the current node has
zero navigable neighbors, the update leaves a stale target selected and
the cursor visible instead of clearing and hiding them. -/
theorem target_selection_counterexample :
    (∃ nav', navUpdate navOrth ⟨0, 0, 0⟩ ⟨1, 0, 0⟩ = .ok nav' ∧
      nav'.targetId = some ("N") ∧ nav'.cursorVisible = true) ∧
    Vec3.dot ((Vec3.mk 0 1 0).sub ⟨0, 0, 0⟩) ⟨1, 0, 0⟩ = 0 ∧
    navUpdate navNoNeighbors ⟨0, 0, 0⟩ ⟨1, 0, 0⟩ = .ok navNoNeighbors ∧
    navNoNeighbors.targetId = some ("X") ∧
    navNoNeighbors.cursorVisible = true := by
  refine ⟨?_, by norm_num [Vec3.dot, Vec3.sub], ?_, rfl, rfl⟩
  · refine ⟨{ navOrth with
      cursorVisible := true, targetId := some ("N") }, ?_, rfl, rfl⟩
    have hsrc : navOrth.env.sourceId = some ("S") := rfl
    have hcp : getCurpos navOrth.env ("N") = .ok ⟨0, 1, 0⟩ := rfl
    have hnav : getNavigable navOrth.env ("S") = .ok ["N"] := rfl
    have hmap : mapExcept (getCurpos navOrth.env) ["N"] = .ok [⟨0, 1, 0⟩] := by
      simp only [mapExcept, hcp]
    have hdists : navDists ⟨0, 0, 0⟩ ⟨1, 0, 0⟩ [⟨0, 1, 0⟩] =
        [((1 : ℚ) : WithTop ℚ)] := by
      norm_num [navDists, Vec3.dot, Vec3.sub, distSqToRay, Vec3.distSq,
        Vec3.add, Vec3.smul]
    have hsel : selectIndex ⟨0, 0, 0⟩ ⟨1, 0, 0⟩ [⟨0, 1, 0⟩] = some 0 := by
      simp [selectIndex, hdists, argmin, argminAux]
    simp [navUpdate, hsrc, hnav, hmap, hsel]
  · have hsrc : navNoNeighbors.env.sourceId = some ("S") := rfl
    have hnav : getNavigable navNoNeighbors.env ("S") = .ok [] := rfl
    simp [navUpdate, hsrc, hnav]

/-- C3 witness: the amended statement on the orthogonal-neighbor
navigator, whose single candidate is selected. -/
theorem target_selection_spec_witness :
    ((["N"] : List String) = [] →
      navUpdate navOrth ⟨0, 0, 0⟩ ⟨1, 0, 0⟩ = .ok navOrth) ∧
    ((["N"] : List String) ≠ [] →
      selectIndex ⟨0, 0, 0⟩ ⟨1, 0, 0⟩ [⟨0, 1, 0⟩] = none →
      navUpdate navOrth ⟨0, 0, 0⟩ ⟨1, 0, 0⟩ =
        .ok { navOrth with cursorVisible := false, targetId := none }) ∧
    (∀ i, (["N"] : List String) ≠ [] →
      selectIndex ⟨0, 0, 0⟩ ⟨1, 0, 0⟩ [⟨0, 1, 0⟩] = some i →
      ∃ hi : i < (["N"] : List String).length,
        ∃ hip : i < ([(⟨0, 1, 0⟩ : Vec3)] : List Vec3).length,
        navUpdate navOrth ⟨0, 0, 0⟩ ⟨1, 0, 0⟩ =
          .ok { navOrth with
            cursorVisible := true,
            targetId := some ((["N"] : List String).get ⟨i, hi⟩) } ∧
        0 ≤ Vec3.dot ((([(⟨0, 1, 0⟩ : Vec3)] : List Vec3).get
          ⟨i, hip⟩).sub ⟨0, 0, 0⟩) ⟨1, 0, 0⟩ ∧
        (∀ j, ∀ hj : j < ([(⟨0, 1, 0⟩ : Vec3)] : List Vec3).length,
          0 ≤ Vec3.dot ((([(⟨0, 1, 0⟩ : Vec3)] : List Vec3).get
            ⟨j, hj⟩).sub ⟨0, 0, 0⟩) ⟨1, 0, 0⟩ →
            distSqToRay ⟨0, 0, 0⟩ ⟨1, 0, 0⟩
                (([(⟨0, 1, 0⟩ : Vec3)] : List Vec3).get ⟨i, hip⟩) ≤
              distSqToRay ⟨0, 0, 0⟩ ⟨1, 0, 0⟩
                (([(⟨0, 1, 0⟩ : Vec3)] : List Vec3).get ⟨j, hj⟩))) :=
  target_selection_spec navOrth ⟨0, 0, 0⟩ ⟨1, 0, 0⟩ ("S") rfl
    (by decide) ["N"] rfl [⟨0, 1, 0⟩]
    (by simp only [mapExcept]; rfl)

/-- The mutation `setPanorama` never touches the camera field of view. -/
theorem setPanorama_fov (env : Env) (id : String) :
    (setPanorama env id).1.cameraFov = env.cameraFov := by
  unfold setPanorama
  by_cases h : env.sourceId = some id
  · rw [if_pos h]
  · rw [if_neg h]
    cases hgp : getPanorama env id <;> rfl

/-- The mutation `setPanorama` always leaves the current-node pointer at the
requested id — also on the `NotFoundError` path, where the pointer was
assigned before the failing lookup. -/
theorem setPanorama_sourceId (env : Env) (id : String) :
    (setPanorama env id).1.sourceId = some id := by
  unfold setPanorama
  by_cases h : env.sourceId = some id
  · rw [if_pos h]; exact h
  · rw [if_neg h]
    cases hgp : getPanorama env id <;> rfl

/-- The mutation `setPanorama` succeeds when the id names a pano of the graph. -/
theorem setPanorama_ok_of_found (env : Env) (id : String) (p : Panorama)
    (hp : getPanorama env id = .ok p) :
    ∃ env1 pf, setPanorama env id = (env1, .ok pf) := by
  unfold setPanorama
  by_cases h : env.sourceId = some id
  · rw [if_pos h]; exact ⟨env, [], rfl⟩
  · rw [if_neg h, hp]; exact ⟨_, _, rfl⟩

/-- The `onComplete` handler restores the captured field of view
regardless of the value the animation updates left behind. -/
theorem transitionComplete_fov (nav : Nav) (fov0 : ℚ) (tid : String) :
    (transitionComplete nav fov0 tid).1.env.cameraFov = fov0 := by
  unfold transitionComplete
  rcases hsp : setPanorama (resetFov nav.env fov0) tid with ⟨env1, r⟩
  have hfov := setPanorama_fov (resetFov nav.env fov0) tid
  rw [hsp] at hfov
  cases r <;> simpa [resetFov] using hfov

/-- When the target pano exists, the `onComplete` handler finishes
cleanly: it restores the field of view, makes the target current and
re-enables the controls. -/
theorem transitionComplete_ok (nav : Nav) (fov0 : ℚ) (tid : String)
    (p : Panorama) (hp : getPanorama nav.env tid = .ok p) :
    ∃ nav', transitionComplete nav fov0 tid = (nav', .ok ()) ∧
      nav'.env.cameraFov = fov0 ∧ nav'.env.sourceId = some tid ∧
      nav'.controlsEnabled = true := by
  unfold transitionComplete
  have hp2 : getPanorama (resetFov nav.env fov0) tid = .ok p := hp
  obtain ⟨env1, pf, hsp⟩ :=
    setPanorama_ok_of_found (resetFov nav.env fov0) tid p hp2
  rw [hsp]
  have hfov := setPanorama_fov (resetFov nav.env fov0) tid
  have hsid := setPanorama_sourceId (resetFov nav.env fov0) tid
  rw [hsp] at hfov hsid
  exact ⟨_, rfl, by simpa [resetFov] using hfov, by simpa using hsid, rfl⟩

/-- C9: a completed panorama transition restores the camera's field of
view to its pre-transition value: during the animation the applied
field of view interpolates from `fov0` (at time 0) to
`fov0 * min(d, 1/d)` (at time 1), and on completion it is reset to
`fov0` — whatever value the animation left — before the target pano is
made current; the finished transition leaves the target as the current
node with the controls re-enabled. -/
theorem transition_fov_spec (nav : Nav) (d : ℚ) (tid sid : String)
    (ht : nav.targetId = some tid) (htne : tid ≠ "")
    (hc : nav.controlsEnabled = true)
    (hsid : nav.env.sourceId = some sid)
    (p0 : Panorama) (hp0 : getPanorama nav.env sid = .ok p0)
    (p1 : Panorama) (hp1 : getPanorama nav.env tid = .ok p1) :
    ∃ nav', ondblclick nav d = (nav', .ok ()) ∧
      nav'.env.cameraFov = nav.env.cameraFov ∧
      nav'.env.sourceId = some tid ∧
      nav'.controlsEnabled = true ∧
      transitionFov nav.env.cameraFov d 0 = nav.env.cameraFov ∧
      transitionFov nav.env.cameraFov d 1 =
        nav.env.cameraFov * min d d⁻¹ ∧
      (∀ fovAnim : ℚ,
        (transitionComplete { nav with
            controlsEnabled := false,
            env := { nav.env with cameraFov := fovAnim } }
          nav.env.cameraFov tid).1.env.cameraFov = nav.env.cameraFov) := by
  have hpos0 : getPosition nav.env sid = .ok (matPosition p0.exmat) := by
    simp [getPosition, getExmat, hp0, Except.map]
  have hpos1 : getPosition nav.env tid = .ok (matPosition p1.exmat) := by
    simp [getPosition, getExmat, hp1, Except.map]
  have hrun : ondblclick nav d =
      transitionComplete { nav with
        controlsEnabled := false,
        env := { nav.env with
          cameraFov := transitionFov nav.env.cameraFov d 1 } }
        nav.env.cameraFov tid := by
    simp only [ondblclick, ht]
    rw [if_pos ⟨hc, htne⟩]
    simp only [hsid, hpos0, hpos1]
  obtain ⟨nav', hok, hfov, hsrc, hctl⟩ :=
    transitionComplete_ok { nav with
        controlsEnabled := false,
        env := { nav.env with
          cameraFov := transitionFov nav.env.cameraFov d 1 } }
      nav.env.cameraFov tid p1 hp1
  refine ⟨nav', by rw [hrun, hok], hfov, hsrc, hctl, ?_, ?_, ?_⟩
  · unfold transitionFov; ring
  · unfold transitionFov; ring
  · intro fovAnim
    exact transitionComplete_fov { nav with
      controlsEnabled := false,
      env := { nav.env with cameraFov := fovAnim } } nav.env.cameraFov tid

/-- C9 witness: the transition spec on the two-node graph, moving from
`"A"` to the targeted `"B"` at distance 5. -/
theorem transition_fov_spec_witness :
    ∃ nav', ondblclick navAB 5 = (nav', .ok ()) ∧
      nav'.env.cameraFov = navAB.env.cameraFov ∧
      nav'.env.sourceId = some ("B") ∧
      nav'.controlsEnabled = true ∧
      transitionFov navAB.env.cameraFov 5 0 = navAB.env.cameraFov ∧
      transitionFov navAB.env.cameraFov 5 1 =
        navAB.env.cameraFov * min 5 (5 : ℚ)⁻¹ ∧
      (∀ fovAnim : ℚ,
        (transitionComplete { navAB with
            controlsEnabled := false,
            env := { navAB.env with cameraFov := fovAnim } }
          navAB.env.cameraFov ("B")).1.env.cameraFov =
            navAB.env.cameraFov) :=
  transition_fov_spec navAB 5 ("B") ("A") rfl (by decide) rfl rfl
    ⟨"A", idMat4, none, ["B"], none⟩ rfl
    ⟨"B", trMat4 5 0 0, none, ["A"], none⟩ rfl

/-- C7: with a current node set and present in the graph, a subpoint of
a line drawing is shown iff its anchor — bound once at construction to
`getClosest(subpoint)` and kept in an immutable record thereafter —
equals the current node id or is a member of the current node's visible
neighbors; in particular, on the 3-node path A–B–C (A↔B and B↔C
mutually visible, A and C not), the overlay anchored at A, B, C shows
exactly the subpoints anchored at A or B when the current node is A,
and exactly those anchored at B or C when it is C. -/
theorem path_overlay_visibility (env : Env) (ld : LineDrawing)
    (cur : String) (h1 : env.sourceId = some cur)
    (vis : List String) (h2 : getVisible env cur = .ok vis) :
    (∃ flags, lineUpdate env ld = .ok flags ∧
      flags = ld.anchors.map (fun a => a == cur || vis.contains a) ∧
      ∀ i, ∀ hi : i < ld.anchors.length, ∀ hif : i < flags.length,
        (flags.get ⟨i, hif⟩ = true ↔
          (ld.anchors.get ⟨i, hi⟩ = cur ∨ ld.anchors.get ⟨i, hi⟩ ∈ vis))) ∧
    (∀ pts ld2, mkLineDrawing env pts = some ld2 →
      ld2.subpoints = pts ∧ ld2.anchors.length = pts.length ∧
      ∀ i, ∀ hi : i < pts.length, ∀ hia : i < ld2.anchors.length,
        getClosest env (pts.get ⟨i, hi⟩) = some (ld2.anchors.get ⟨i, hia⟩)) ∧
    mkLineDrawing envPathA pathPts = some ldPath ∧
    lineUpdate envPathA ldPath = .ok [true, true, false] ∧
    lineUpdate envPathC ldPath = .ok [false, true, true] := by
  have hchild : ∀ a, childVisible env a = .ok (a == cur || vis.contains a) := by
    intro a
    unfold childVisible
    by_cases ha : env.sourceId = some a
    · rw [if_pos ha]
      have hac : cur = a := Option.some_inj.mp (h1.symm.trans ha)
      subst hac
      simp
    · rw [if_neg ha]
      simp only [h1, h2]
      have hne : (a == cur) = false := by
        rw [beq_eq_false_iff_ne]
        intro hc
        apply ha
        rw [hc]
        exact h1
      simp [hne]
  refine ⟨?_, ?_, ?_, by rfl, by rfl⟩
  · refine ⟨ld.anchors.map (fun a => a == cur || vis.contains a),
      mapExcept_congr_ok _ _ ld.anchors (fun a _ => hchild a), rfl, ?_⟩
    intro i hi hif
    simp only [List.get_eq_getElem, List.getElem_map]
    simp
  · intro pts ld2 hmk
    unfold mkLineDrawing at hmk
    cases hmo : mapOption (getClosest env) pts with
    | none => rw [hmo] at hmk; exact Option.noConfusion hmk
    | some as =>
      rw [hmo] at hmk
      simp only [Option.map_some', Option.some.injEq] at hmk
      obtain ⟨hlen, hget⟩ := mapOption_some_get _ pts as hmo
      rw [← hmk]
      refine ⟨rfl, hlen, ?_⟩
      intro i hi hia
      exact hget i hi (by simpa using hia)
  · have hp : envPathA.panos =
        [⟨"A", idMat4, none, ["B"], some ["B"]⟩,
          ⟨"B", trMat4 5 0 0, none, ["A", "C"], some ["A", "C"]⟩,
          ⟨"C", trMat4 10 0 0, none, ["B"], some ["B"]⟩] := rfl
    have hA : getPositionD envPathA ("A") = ⟨0, 0, 0⟩ := rfl
    have hB : getPositionD envPathA ("B") = ⟨5, 0, 0⟩ := rfl
    have hC : getPositionD envPathA ("C") = ⟨10, 0, 0⟩ := rfl
    have hc1 : getClosest envPathA ⟨0, 0, 0⟩ = some ("A") := by
      simp only [getClosest, keymin, hp, List.map_cons, List.map_nil, hA, hB, hC]
      norm_num [argmin, argminAux, Vec3.distSq]
    have hc2 : getClosest envPathA ⟨5, 0, 0⟩ = some ("B") := by
      simp only [getClosest, keymin, hp, List.map_cons, List.map_nil, hA, hB, hC]
      norm_num [argmin, argminAux, Vec3.distSq]
    have hc3 : getClosest envPathA ⟨10, 0, 0⟩ = some ("C") := by
      simp only [getClosest, keymin, hp, List.map_cons, List.map_nil, hA, hB, hC]
      norm_num [argmin, argminAux, Vec3.distSq]
    simp only [mkLineDrawing, pathPts, mapOption, hc1, hc2, hc3]
    rfl

/-- C7 witness: the visibility rule applied on the A–B–C scenario with
current node `"A"` and visible neighbors `["B"]`. -/
theorem path_overlay_visibility_witness :
    (∃ flags, lineUpdate envPathA ldPath = .ok flags ∧
      flags = ldPath.anchors.map
        (fun a => a == "A" || (["B"] : List String).contains a) ∧
      ∀ i, ∀ hi : i < ldPath.anchors.length, ∀ hif : i < flags.length,
        (flags.get ⟨i, hif⟩ = true ↔
          (ldPath.anchors.get ⟨i, hi⟩ = "A" ∨
            ldPath.anchors.get ⟨i, hi⟩ ∈ (["B"] : List String)))) ∧
    (∀ pts ld2, mkLineDrawing envPathA pts = some ld2 →
      ld2.subpoints = pts ∧ ld2.anchors.length = pts.length ∧
      ∀ i, ∀ hi : i < pts.length, ∀ hia : i < ld2.anchors.length,
        getClosest envPathA (pts.get ⟨i, hi⟩) =
          some (ld2.anchors.get ⟨i, hia⟩)) ∧
    mkLineDrawing envPathA pathPts = some ldPath ∧
    lineUpdate envPathA ldPath = .ok [true, true, false] ∧
    lineUpdate envPathC ldPath = .ok [false, true, true] :=
  path_overlay_visibility envPathA ldPath ("A") rfl ["B"] rfl

end Pangea
